import Mathlib

/-!
Shallow embedding of `src/service/rooms/state_accessor/mod.rs` (the
federation visibility decision of conduit) and proofs about it.

The external collaborators of the accessor (snapshot store, state reader,
live membership roster, JSON decoding of stored event content) are modelled
by an explicit environment `Env`; the mutable visibility cache is threaded
through `server_can_see_event` as an explicit LRU association list; the
number of collaborator invocations performed by one call is returned
alongside the verdict so that memoization claims are observable.
-/

namespace Conduit

abbrev ServerName := String

abbrev RoomId := String

abbrev EventId := String

/-- A user identifier: a localpart together with the server it lives on. -/
structure UserId where
  localpart : String
  server_name : ServerName
deriving DecidableEq, Repr

/-- Serialized form of a user id, used as the state sub-key of membership
entries (`user_id.as_str()` in the source). -/
def UserId.as_str (u : UserId) : String :=
  "@" ++ u.localpart ++ ":" ++ u.server_name

/-- Membership states; the enumeration is non-exhaustive in ruma, so a
`Custom` case carries an unrecognized raw value. -/
inductive MembershipState where
  | Ban
  | Invite
  | Join
  | Knock
  | Leave
  | Custom (raw : String)
deriving DecidableEq, Repr

/-- History visibility values; the enumeration is non-exhaustive in ruma, so
a `Custom` case carries an unrecognized raw value (it falls into the
catch-all arm of the policy match in the source). -/
inductive HistoryVisibility where
  | Invited
  | Joined
  | Shared
  | WorldReadable
  | Custom (raw : String)
deriving DecidableEq, Repr

/-- The two state event types the accessor reads. -/
inductive StateEventType where
  | RoomMember
  | RoomHistoryVisibility
deriving DecidableEq, Repr

/-- Errors: `badDatabase` is `Error::bad_database`, `backend` stands for any
hard failure returned by the storage collaborators themselves. -/
inductive Error where
  | badDatabase (msg : String)
  | backend (msg : String)
deriving DecidableEq, Repr

structure RoomMemberEventContent where
  membership : MembershipState
deriving DecidableEq, Repr

structure RoomHistoryVisibilityEventContent where
  history_visibility : HistoryVisibility
deriving DecidableEq, Repr

/-- A stored state event. Its raw JSON content is modelled by the outcome of
decoding it as each of the two record types the accessor needs: `none`
means the serde decode of the content fails for that record type. -/
structure PduEvent where
  member_content : Option RoomMemberEventContent
  history_visibility_content : Option RoomHistoryVisibilityEventContent
deriving DecidableEq, Repr

/-- Key of the server visibility cache: requesting server and snapshot id. -/
abbrev CacheKey := ServerName × Nat

/-- The server visibility cache, an LRU list with the most recently used
entry first (`LruCache<(OwnedServerName, u64), bool>` in the source). -/
abbrev Cache := List (CacheKey × Bool)

/-- Look a verdict up in the cache. -/
def cacheGet (c : Cache) (k : CacheKey) : Option Bool :=
  (c.find? (fun e => decide (e.1 = k))).map (fun e => e.2)

/-- Looking an entry up with `get_mut` marks it most recently used. -/
def cachePromote (c : Cache) (k : CacheKey) : Cache :=
  match c.find? (fun e => decide (e.1 = k)) with
  | none => c
  | some e => e :: c.filter (fun x => decide (x.1 ≠ k))

/-- Insert a verdict, evicting least recently used entries beyond the
configured capacity. -/
def cacheInsert (cap : Nat) (c : Cache) (k : CacheKey) (v : Bool) : Cache :=
  ((k, v) :: c.filter (fun x => decide (x.1 ≠ k))).take cap

/-- The collaborators of the state accessor: the cache capacity configured
at service start, the event-to-snapshot index, the per-snapshot state
reader (`Data::state_get`, content decoding included in `PduEvent`), and
the live room membership index (`state_cache.room_members`, whose iterator
may yield per-entry errors). -/
structure Env where
  capacity : Nat
  pdu_shortstatehash : EventId → Except Error (Option Nat)
  state_get : Nat → StateEventType → String → Except Error (Option PduEvent)
  room_members : RoomId → List (Except Error UserId)

/-- Get membership for given user in state (lines 65 to 76 of the source):
an absent record is `Leave`, a present but undecodable record is a
`bad_database` error. -/
def user_membership (env : Env) (shortstatehash : Nat) (user_id : UserId) :
    Except Error MembershipState :=
  match env.state_get shortstatehash .RoomMember user_id.as_str with
  | .error e => .error e
  | .ok none => .ok .Leave
  | .ok (some s) =>
    match s.member_content with
    | some c => .ok c.membership
    | none => .error (.badDatabase "Invalid room membership event in database.")

/-- The user was a joined member at this state; any resolution error reads
as false (`unwrap_or_default`). -/
def user_was_joined (env : Env) (shortstatehash : Nat) (user_id : UserId) : Bool :=
  match user_membership env shortstatehash user_id with
  | .ok s => s == .Join
  | .error _ => false

/-- The user was an invited or joined member at this state; any resolution
error reads as false (`unwrap_or_default`). -/
def user_was_invited (env : Env) (shortstatehash : Nat) (user_id : UserId) : Bool :=
  match user_membership env shortstatehash user_id with
  | .ok s => s == .Join || s == .Invite
  | .error _ => false

/-- Resolution of the room history visibility at a snapshot (lines 116 to
124 of the source): an absent record is `Shared`, a present but
undecodable record is a `bad_database` error. -/
def resolve_history_visibility (env : Env) (shortstatehash : Nat) :
    Except Error HistoryVisibility :=
  match env.state_get shortstatehash .RoomHistoryVisibility "" with
  | .error e => .error e
  | .ok none => .ok .Shared
  | .ok (some s) =>
    match s.history_visibility_content with
    | some c => .ok c.history_visibility
    | none => .error (.badDatabase "Invalid history visibility event in database.")

/-- Current room members that live on the requesting server (lines 126 to
131 of the source): per-entry roster errors are filtered out, then the
roster is restricted to users of the origin server. -/
def current_server_members (env : Env) (room_id : RoomId) (origin : ServerName) :
    List UserId :=
  ((env.room_members room_id).filterMap Except.toOption).filter
    (fun member => member.server_name == origin)

/-- Invocation counts of the collaborators behind one decision call:
history visibility resolutions, roster enumerations, and per-user
membership lookups. -/
structure Counts where
  resolver : Nat
  roster : Nat
  membership : Nat
deriving DecidableEq, Repr

def Counts.zero : Counts := ⟨0, 0, 0⟩

/-- Short-circuiting existential search that also reports how many
elements were examined, mirroring `Iterator::any`. -/
def count_any {α : Type} (p : α → Bool) : List α → Nat × Bool
  | [] => (0, false)
  | a :: l =>
    if p a then (1, true)
    else
      let r := count_any p l
      (r.1 + 1, r.2)

/-- The policy match of lines 133 to 147 of the source, applied to the
already filtered same-server roster. The returned counts include the one
history visibility resolution that necessarily preceded this match. -/
def apply_policy (env : Env) (shortstatehash : Nat) (members : List UserId)
    (history_visibility : HistoryVisibility) : Bool × Counts :=
  match history_visibility with
  | .WorldReadable => (true, ⟨1, 0, 0⟩)
  | .Shared => (true, ⟨1, 0, 0⟩)
  | .Invited =>
    let r := count_any (fun member => user_was_invited env shortstatehash member) members
    (r.2, ⟨1, 1, r.1⟩)
  | .Joined =>
    let r := count_any (fun member => user_was_joined env shortstatehash member) members
    (r.2, ⟨1, 1, r.1⟩)
  | .Custom _ => (false, ⟨1, 0, 0⟩)

/-- Whether a server is allowed to see an event through federation, based
on the room history visibility at that event state (lines 96 to 155 of the
source). Returns the verdict, the cache after the call, and the
collaborator invocation counts of the call. -/
def server_can_see_event (env : Env) (cache : Cache) (origin : ServerName)
    (room_id : RoomId) (event_id : EventId) :
    Except Error Bool × Cache × Counts :=
  match env.pdu_shortstatehash event_id with
  | .error e => (.error e, cache, Counts.zero)
  | .ok none => (.ok false, cache, Counts.zero)
  | .ok (some shortstatehash) =>
    match cacheGet cache (origin, shortstatehash) with
    | some visibility =>
      (.ok visibility, cachePromote cache (origin, shortstatehash), Counts.zero)
    | none =>
      match resolve_history_visibility env shortstatehash with
      | .error e => (.error e, cache, ⟨1, 0, 0⟩)
      | .ok history_visibility =>
        let rv := apply_policy env shortstatehash
          (current_server_members env room_id origin) history_visibility
        (.ok rv.1, cacheInsert env.capacity cache (origin, shortstatehash) rv.1, rv.2)

/-! Helper lemmas about the cache and the counting search. -/

theorem count_any_snd {α : Type} (p : α → Bool) (l : List α) :
    (count_any p l).2 = l.any p := by
  induction l with
  | nil => rfl
  | cons a l ih => cases h : p a <;> simp [count_any, h, ih]

theorem cacheGet_promote {c : Cache} {k : CacheKey} {v : Bool}
    (h : cacheGet c k = some v) : cacheGet (cachePromote c k) k = some v := by
  unfold cacheGet at h ⊢
  unfold cachePromote
  cases hf : c.find? (fun e => decide (e.1 = k)) with
  | none => rw [hf] at h; exact Option.noConfusion h
  | some e =>
    rw [hf] at h
    simp only [Option.map_some'] at h
    have he := List.find?_some hf
    have hfc : List.find? (fun x => decide (x.1 = k))
        (e :: List.filter (fun x => decide (x.1 ≠ k)) c) = some e :=
      List.find?_cons_of_pos _ he
    show Option.map (fun x => x.2)
      (List.find? (fun x => decide (x.1 = k))
        (e :: List.filter (fun x => decide (x.1 ≠ k)) c)) = some v
    rw [hfc]
    simpa using h

theorem cacheGet_insert (cap : Nat) (hcap : 0 < cap) (c : Cache) (k : CacheKey)
    (v : Bool) : cacheGet (cacheInsert cap c k v) k = some v := by
  unfold cacheGet cacheInsert
  obtain ⟨n, rfl⟩ : ∃ n, cap = n + 1 := ⟨cap - 1, (Nat.succ_pred_eq_of_pos hcap).symm⟩
  rw [List.take_succ_cons, List.find?_cons_of_pos _ (by simp)]
  rfl

/-! Path lemmas: one reduction lemma per control path of
`server_can_see_event`. -/

theorem scse_db_error (env : Env) (cache : Cache) (origin : ServerName)
    (room_id : RoomId) (event_id : EventId) (e : Error)
    (hss : env.pdu_shortstatehash event_id = .error e) :
    server_can_see_event env cache origin room_id event_id =
      (.error e, cache, Counts.zero) := by
  unfold server_can_see_event
  rw [hss]

theorem scse_no_snapshot (env : Env) (cache : Cache) (origin : ServerName)
    (room_id : RoomId) (event_id : EventId)
    (hss : env.pdu_shortstatehash event_id = .ok none) :
    server_can_see_event env cache origin room_id event_id =
      (.ok false, cache, Counts.zero) := by
  unfold server_can_see_event
  rw [hss]

theorem scse_hit (env : Env) (cache : Cache) (origin : ServerName)
    (room_id : RoomId) (event_id : EventId) (h : Nat) (v : Bool)
    (hss : env.pdu_shortstatehash event_id = .ok (some h))
    (hhit : cacheGet cache (origin, h) = some v) :
    server_can_see_event env cache origin room_id event_id =
      (.ok v, cachePromote cache (origin, h), Counts.zero) := by
  unfold server_can_see_event
  simp only [hss, hhit]

theorem scse_resolve_error (env : Env) (cache : Cache) (origin : ServerName)
    (room_id : RoomId) (event_id : EventId) (h : Nat) (e : Error)
    (hss : env.pdu_shortstatehash event_id = .ok (some h))
    (hmiss : cacheGet cache (origin, h) = none)
    (hres : resolve_history_visibility env h = .error e) :
    server_can_see_event env cache origin room_id event_id =
      (.error e, cache, ⟨1, 0, 0⟩) := by
  unfold server_can_see_event
  simp only [hss, hmiss, hres]

theorem scse_resolved (env : Env) (cache : Cache) (origin : ServerName)
    (room_id : RoomId) (event_id : EventId) (h : Nat) (hv : HistoryVisibility)
    (hss : env.pdu_shortstatehash event_id = .ok (some h))
    (hmiss : cacheGet cache (origin, h) = none)
    (hres : resolve_history_visibility env h = .ok hv) :
    server_can_see_event env cache origin room_id event_id =
      (.ok (apply_policy env h (current_server_members env room_id origin) hv).1,
       cacheInsert env.capacity cache (origin, h)
         (apply_policy env h (current_server_members env room_id origin) hv).1,
       (apply_policy env h (current_server_members env room_id origin) hv).2) := by
  unfold server_can_see_event
  simp only [hss, hmiss, hres]

theorem apply_policy_resolver (env : Env) (h : Nat) (members : List UserId)
    (hv : HistoryVisibility) : (apply_policy env h members hv).2.resolver = 1 := by
  cases hv <;> rfl

theorem resolve_corrupt (env : Env) (h : Nat) (s : PduEvent)
    (hget : env.state_get h .RoomHistoryVisibility "" = .ok (some s))
    (hdec : s.history_visibility_content = none) :
    resolve_history_visibility env h =
      .error (.badDatabase "Invalid history visibility event in database.") := by
  unfold resolve_history_visibility
  simp only [hget, hdec]

theorem apply_policy_invited (env : Env) (h : Nat) (members : List UserId) :
    (apply_policy env h members .Invited).1 = true ↔
      ∃ m ∈ members, user_was_invited env h m = true := by
  simp [apply_policy, count_any_snd, List.any_eq_true]

theorem apply_policy_joined (env : Env) (h : Nat) (members : List UserId) :
    (apply_policy env h members .Joined).1 = true ↔
      ∃ m ∈ members, user_was_joined env h m = true := by
  simp [apply_policy, count_any_snd, List.any_eq_true]

/-! Concrete environments used by the witnesses. Every one resolves every
event id to snapshot 7 and answers state reads uniformly by state event
type, which is all the decision algorithm can observe. -/

/-- History visibility Invited at the snapshot; one current member of
server example.org whose membership at the snapshot decodes to Invite. -/
def envInvited : Env where
  capacity := 100
  pdu_shortstatehash := fun _ => .ok (some 7)
  state_get := fun _ ty _ =>
    match ty with
    | .RoomHistoryVisibility =>
      .ok (some { member_content := none,
                  history_visibility_content := some { history_visibility := .Invited } })
    | .RoomMember =>
      .ok (some { member_content := some { membership := .Invite },
                  history_visibility_content := none })
  room_members := fun _ => [.ok { localpart := "a", server_name := "example.org" }]

/-- History visibility WorldReadable at the snapshot; empty roster. -/
def envWorld : Env where
  capacity := 100
  pdu_shortstatehash := fun _ => .ok (some 7)
  state_get := fun _ ty _ =>
    match ty with
    | .RoomHistoryVisibility =>
      .ok (some { member_content := none,
                  history_visibility_content := some { history_visibility := .WorldReadable } })
    | .RoomMember => .ok none
  room_members := fun _ => []

/-- The history visibility entry at the snapshot is present but does not
decode as a history visibility record. -/
def envCorrupt : Env where
  capacity := 100
  pdu_shortstatehash := fun _ => .ok (some 7)
  state_get := fun _ ty _ =>
    match ty with
    | .RoomHistoryVisibility =>
      .ok (some { member_content := none, history_visibility_content := none })
    | .RoomMember => .ok none
  room_members := fun _ => []

/-- The history visibility at the snapshot decodes to a value outside the
recognized enumeration. -/
def envUnknownVis : Env where
  capacity := 100
  pdu_shortstatehash := fun _ => .ok (some 7)
  state_get := fun _ ty _ =>
    match ty with
    | .RoomHistoryVisibility =>
      .ok (some { member_content := none,
                  history_visibility_content :=
                    some { history_visibility := .Custom "io.element.custom" } })
    | .RoomMember => .ok none
  room_members := fun _ => []

/-- No state entry is present at any snapshot. -/
def envDefaults : Env where
  capacity := 100
  pdu_shortstatehash := fun _ => .ok (some 7)
  state_get := fun _ _ _ => .ok none
  room_members := fun _ => []

/-- The snapshot store does not know any event. -/
def envNoEvent : Env where
  capacity := 100
  pdu_shortstatehash := fun _ => .ok none
  state_get := fun _ _ _ => .ok none
  room_members := fun _ => []

/-- The membership entry at the snapshot is present but does not decode as
a membership record. -/
def envBadMember : Env where
  capacity := 100
  pdu_shortstatehash := fun _ => .ok (some 7)
  state_get := fun _ ty _ =>
    match ty with
    | .RoomHistoryVisibility => .ok none
    | .RoomMember =>
      .ok (some { member_content := none, history_visibility_content := none })
  room_members := fun _ => [.ok { localpart := "a", server_name := "example.org" }]

/-- C6: a user with no membership state entry at a snapshot resolves to
membership Leave, and a snapshot with no history visibility state entry
resolves to history visibility Shared. -/
theorem default_membership_and_visibility (env : Env) (h : Nat) (u : UserId)
    (hm : env.state_get h .RoomMember u.as_str = .ok none)
    (hv : env.state_get h .RoomHistoryVisibility "" = .ok none) :
    user_membership env h u = .ok .Leave ∧
      resolve_history_visibility env h = .ok .Shared := by
  constructor
  · unfold user_membership
    rw [hm]
  · unfold resolve_history_visibility
    rw [hv]

theorem default_membership_and_visibility_witness :
    user_membership envDefaults 7 { localpart := "a", server_name := "example.org" } =
        .ok .Leave ∧
      resolve_history_visibility envDefaults 7 = .ok .Shared :=
  default_membership_and_visibility envDefaults 7
    { localpart := "a", server_name := "example.org" } rfl rfl

/-- C7: when the history visibility at the event snapshot resolves to
WorldReadable or Shared, the verdict is allow for any requesting server
and any roster, the empty one included. -/
theorem serverCanSee_world_readable_shared (env : Env) (cache : Cache)
    (origin : ServerName) (room_id : RoomId) (event_id : EventId) (h : Nat)
    (hss : env.pdu_shortstatehash event_id = .ok (some h))
    (hmiss : cacheGet cache (origin, h) = none)
    (hres : resolve_history_visibility env h = .ok .WorldReadable ∨
      resolve_history_visibility env h = .ok .Shared) :
    (server_can_see_event env cache origin room_id event_id).1 = .ok true := by
  cases hres with
  | inl hres =>
    rw [scse_resolved env cache origin room_id event_id h _ hss hmiss hres]
    rfl
  | inr hres =>
    rw [scse_resolved env cache origin room_id event_id h _ hss hmiss hres]
    rfl

theorem serverCanSee_world_readable_shared_witness :
    (server_can_see_event envWorld [] "example.org" "!room:example.com" "$ev").1 =
      .ok true :=
  serverCanSee_world_readable_shared envWorld [] "example.org" "!room:example.com"
    "$ev" 7 rfl rfl (Or.inl rfl)

/-- C8: for an event identifier the snapshot store does not map to a
snapshot, the call returns false immediately, the cache is exactly what it
was (it is not even consulted), and no collaborator is invoked. -/
theorem serverCanSee_unknown_event (env : Env) (cache : Cache)
    (origin : ServerName) (room_id : RoomId) (event_id : EventId)
    (hss : env.pdu_shortstatehash event_id = .ok none) :
    server_can_see_event env cache origin room_id event_id =
      (.ok false, cache, Counts.zero) :=
  scse_no_snapshot env cache origin room_id event_id hss

theorem serverCanSee_unknown_event_witness :
    server_can_see_event envNoEvent [] "example.org" "!room:example.com" "$ev" =
      (.ok false, [], Counts.zero) :=
  serverCanSee_unknown_event envNoEvent [] "example.org" "!room:example.com" "$ev" rfl

/-- C9: the derived membership predicates are fail-closed: whenever the
resolution of the user membership fails, in particular when the membership
record is present but does not decode, both predicates return false
instead of propagating the error. -/
theorem membership_predicates_fail_closed (env : Env) (h : Nat) (u : UserId) :
    (∀ e, user_membership env h u = .error e →
      user_was_joined env h u = false ∧ user_was_invited env h u = false) ∧
    (∀ s, env.state_get h .RoomMember u.as_str = .ok (some s) →
      s.member_content = none →
      user_was_joined env h u = false ∧ user_was_invited env h u = false) := by
  have key : ∀ e, user_membership env h u = .error e →
      user_was_joined env h u = false ∧ user_was_invited env h u = false := by
    intro e he
    unfold user_was_joined user_was_invited
    rw [he]
    exact ⟨rfl, rfl⟩
  refine ⟨key, ?_⟩
  intro s hs hdec
  have hmem : user_membership env h u =
      .error (.badDatabase "Invalid room membership event in database.") := by
    unfold user_membership
    simp only [hs, hdec]
  exact key _ hmem

theorem membership_predicates_fail_closed_witness :
    user_was_joined envBadMember 7 { localpart := "a", server_name := "example.org" } =
        false ∧
      user_was_invited envBadMember 7 { localpart := "a", server_name := "example.org" } =
        false :=
  (membership_predicates_fail_closed envBadMember 7
      { localpart := "a", server_name := "example.org" }).2
    { member_content := none, history_visibility_content := none } rfl rfl

/-- C1: when the event resolves to a snapshot whose history visibility is
Invited, the verdict is allow exactly when some current member of the
requesting server was joined or invited at that snapshot; when it is
Joined, allow exactly when some such member was joined at that snapshot. -/
theorem serverCanSee_invited_joined_policy (env : Env) (cache : Cache)
    (origin : ServerName) (room_id : RoomId) (event_id : EventId) (h : Nat)
    (hss : env.pdu_shortstatehash event_id = .ok (some h))
    (hmiss : cacheGet cache (origin, h) = none) :
    (resolve_history_visibility env h = .ok .Invited →
      ((server_can_see_event env cache origin room_id event_id).1 = .ok true ↔
        ∃ m ∈ current_server_members env room_id origin,
          user_was_invited env h m = true)) ∧
    (resolve_history_visibility env h = .ok .Joined →
      ((server_can_see_event env cache origin room_id event_id).1 = .ok true ↔
        ∃ m ∈ current_server_members env room_id origin,
          user_was_joined env h m = true)) := by
  constructor
  · intro hres
    rw [scse_resolved env cache origin room_id event_id h _ hss hmiss hres]
    have hpi := apply_policy_invited env h (current_server_members env room_id origin)
    simpa using hpi
  · intro hres
    rw [scse_resolved env cache origin room_id event_id h _ hss hmiss hres]
    have hpj := apply_policy_joined env h (current_server_members env room_id origin)
    simpa using hpj

theorem serverCanSee_invited_joined_policy_witness :
    (server_can_see_event envInvited [] "example.org" "!room:example.com" "$ev").1 =
      .ok true :=
  ((serverCanSee_invited_joined_policy envInvited [] "example.org" "!room:example.com"
      "$ev" 7 rfl rfl).1 rfl).mpr
    ⟨{ localpart := "a", server_name := "example.org" }, by decide, by decide⟩

/-- C2 counterexample: an input whose history visibility state entry is
present but undecodable makes `server_can_see_event` return an error to
its caller, not a boolean verdict. -/
theorem serverCanSee_never_fails_counterexample :
    (server_can_see_event envCorrupt [] "example.org" "!room:example.com" "$ev").1 =
      .error (.badDatabase "Invalid history visibility event in database.") := rfl

/-- C2 amended: the call returns a boolean verdict whenever the snapshot
lookup succeeds and the history visibility of the snapshot resolves; but
when the history visibility entry is present and undecodable on a cache
miss, the call propagates a database corruption error to its caller
instead of degrading it to deny. -/
theorem serverCanSee_error_behaviour (env : Env) (cache : Cache)
    (origin : ServerName) (room_id : RoomId) (event_id : EventId) (h : Nat)
    (hss : env.pdu_shortstatehash event_id = .ok (some h)) :
    (∀ hv, resolve_history_visibility env h = .ok hv →
      ∃ b, (server_can_see_event env cache origin room_id event_id).1 = .ok b) ∧
    (cacheGet cache (origin, h) = none →
      ∀ s, env.state_get h .RoomHistoryVisibility "" = .ok (some s) →
        s.history_visibility_content = none →
        (server_can_see_event env cache origin room_id event_id).1 =
          .error (.badDatabase "Invalid history visibility event in database.")) := by
  constructor
  · intro hv hres
    cases hget : cacheGet cache (origin, h) with
    | some w =>
      exact ⟨w, by rw [scse_hit env cache origin room_id event_id h w hss hget]⟩
    | none =>
      refine ⟨(apply_policy env h (current_server_members env room_id origin) hv).1, ?_⟩
      rw [scse_resolved env cache origin room_id event_id h hv hss hget hres]
  · intro hmiss s hs hdec
    rw [scse_resolve_error env cache origin room_id event_id h _ hss hmiss
      (resolve_corrupt env h s hs hdec)]

theorem serverCanSee_error_behaviour_witness :
    (server_can_see_event envCorrupt [] "example.org" "!room:example.com" "$ev").1 =
      .error (.badDatabase "Invalid history visibility event in database.") ∧
    (server_can_see_event envWorld [] "example.org" "!room:example.com" "$ev").1 =
      .ok true :=
  ⟨(serverCanSee_error_behaviour envCorrupt [] "example.org" "!room:example.com"
      "$ev" 7 rfl).2 rfl
      { member_content := none, history_visibility_content := none } rfl rfl,
    by
      obtain ⟨b, hb⟩ := (serverCanSee_error_behaviour envWorld [] "example.org"
        "!room:example.com" "$ev" 7 rfl).1 .WorldReadable rfl
      rw [hb]
      cases b with
      | true => rfl
      | false => exact absurd hb (by intro hx; exact Bool.noConfusion (Except.ok.inj hx))⟩

/-- C10: a call that returns an error to its caller leaves the visibility
cache exactly as it was: every error exit occurs before the single cache
insertion point. -/
theorem serverCanSee_error_atomicity (env : Env) (cache : Cache)
    (origin : ServerName) (room_id : RoomId) (event_id : EventId) (e : Error)
    (herr : (server_can_see_event env cache origin room_id event_id).1 = .error e) :
    (server_can_see_event env cache origin room_id event_id).2.1 = cache := by
  cases hss : env.pdu_shortstatehash event_id with
  | error e2 => rw [scse_db_error env cache origin room_id event_id e2 hss]
  | ok o =>
    cases o with
    | none => rw [scse_no_snapshot env cache origin room_id event_id hss]
    | some h =>
      cases hget : cacheGet cache (origin, h) with
      | some w =>
        rw [scse_hit env cache origin room_id event_id h w hss hget] at herr
        exact Except.noConfusion herr
      | none =>
        cases hres : resolve_history_visibility env h with
        | error e3 =>
          rw [scse_resolve_error env cache origin room_id event_id h e3 hss hget hres]
        | ok hv =>
          rw [scse_resolved env cache origin room_id event_id h hv hss hget hres] at herr
          exact Except.noConfusion herr

theorem serverCanSee_error_atomicity_witness :
    (server_can_see_event envCorrupt [] "example.org" "!room:example.com" "$ev").2.1 =
      [] :=
  serverCanSee_error_atomicity envCorrupt [] "example.org" "!room:example.com" "$ev"
    (.badDatabase "Invalid history visibility event in database.") rfl

/-- C3: once a call has stored a verdict for (server, snapshot), a
subsequent call for the same server and an event resolving to the same
snapshot returns the identical verdict from the cache, invoking neither
the history visibility resolver, nor the roster, nor any membership
lookup. -/
theorem serverCanSee_memoization (env : Env) (cache : Cache)
    (origin : ServerName) (room_id : RoomId) (event_id event_id2 : EventId)
    (h : Nat) (v : Bool)
    (hcap : 0 < env.capacity)
    (hss : env.pdu_shortstatehash event_id = .ok (some h))
    (hss2 : env.pdu_shortstatehash event_id2 = .ok (some h))
    (hv : (server_can_see_event env cache origin room_id event_id).1 = .ok v) :
    (server_can_see_event env
        (server_can_see_event env cache origin room_id event_id).2.1
        origin room_id event_id2).1 = .ok v ∧
    (server_can_see_event env
        (server_can_see_event env cache origin room_id event_id).2.1
        origin room_id event_id2).2.2 = Counts.zero := by
  have hkey : cacheGet (server_can_see_event env cache origin room_id event_id).2.1
      (origin, h) = some v := by
    cases hget : cacheGet cache (origin, h) with
    | some w =>
      rw [scse_hit env cache origin room_id event_id h w hss hget] at hv ⊢
      have hv2 : (Except.ok w : Except Error Bool) = .ok v := hv
      have hw : w = v := Except.ok.inj hv2
      rw [hw] at hget
      exact cacheGet_promote hget
    | none =>
      cases hres : resolve_history_visibility env h with
      | error e =>
        rw [scse_resolve_error env cache origin room_id event_id h e hss hget hres] at hv
        exact Except.noConfusion hv
      | ok hvv =>
        rw [scse_resolved env cache origin room_id event_id h hvv hss hget hres] at hv ⊢
        have hv2 : (Except.ok (apply_policy env h
            (current_server_members env room_id origin) hvv).1 : Except Error Bool) =
            .ok v := hv
        have hw := Except.ok.inj hv2
        rw [hw]
        exact cacheGet_insert env.capacity hcap cache (origin, h) v
  constructor
  · rw [scse_hit env (server_can_see_event env cache origin room_id event_id).2.1
      origin room_id event_id2 h v hss2 hkey]
  · rw [scse_hit env (server_can_see_event env cache origin room_id event_id).2.1
      origin room_id event_id2 h v hss2 hkey]

theorem serverCanSee_memoization_witness :
    (server_can_see_event envInvited
        (server_can_see_event envInvited [] "example.org" "!room:example.com" "$ev").2.1
        "example.org" "!room:example.com" "$ev").1 = .ok true ∧
    (server_can_see_event envInvited
        (server_can_see_event envInvited [] "example.org" "!room:example.com" "$ev").2.1
        "example.org" "!room:example.com" "$ev").2.2 = Counts.zero :=
  serverCanSee_memoization envInvited [] "example.org" "!room:example.com"
    "$ev" "$ev" 7 true (by decide) rfl rfl rfl

/-- C4: a history visibility entry that is present but undecodable yields
an error with no write to the cache, so any later call for the same
server and event, on the cache the failed call left behind, reaches the
history visibility resolver again (and with the record repaired can reach
a different verdict). -/
theorem serverCanSee_corrupt_not_cached (env : Env) (cache : Cache)
    (origin : ServerName) (room_id : RoomId) (event_id : EventId) (h : Nat)
    (s : PduEvent)
    (hss : env.pdu_shortstatehash event_id = .ok (some h))
    (hmiss : cacheGet cache (origin, h) = none)
    (hget : env.state_get h .RoomHistoryVisibility "" = .ok (some s))
    (hdec : s.history_visibility_content = none) :
    server_can_see_event env cache origin room_id event_id =
      (.error (.badDatabase "Invalid history visibility event in database."),
        cache, ⟨1, 0, 0⟩) ∧
    ∀ env2 : Env, env2.pdu_shortstatehash event_id = .ok (some h) →
      (server_can_see_event env2
        (server_can_see_event env cache origin room_id event_id).2.1
        origin room_id event_id).2.2.resolver = 1 := by
  have hfirst := scse_resolve_error env cache origin room_id event_id h _ hss hmiss
    (resolve_corrupt env h s hget hdec)
  refine ⟨hfirst, ?_⟩
  intro env2 hss2
  rw [hfirst]
  show (server_can_see_event env2 cache origin room_id event_id).2.2.resolver = 1
  cases hres : resolve_history_visibility env2 h with
  | error e =>
    rw [scse_resolve_error env2 cache origin room_id event_id h e hss2 hmiss hres]
  | ok hv =>
    rw [scse_resolved env2 cache origin room_id event_id h hv hss2 hmiss hres]
    exact apply_policy_resolver env2 h (current_server_members env2 room_id origin) hv

theorem serverCanSee_corrupt_not_cached_witness :
    server_can_see_event envCorrupt [] "example.org" "!room:example.com" "$ev" =
      (.error (.badDatabase "Invalid history visibility event in database."),
        [], ⟨1, 0, 0⟩) ∧
    (server_can_see_event envWorld
        (server_can_see_event envCorrupt [] "example.org" "!room:example.com" "$ev").2.1
        "example.org" "!room:example.com" "$ev").2.2.resolver = 1 :=
  ⟨(serverCanSee_corrupt_not_cached envCorrupt [] "example.org" "!room:example.com"
      "$ev" 7 { member_content := none, history_visibility_content := none }
      rfl rfl rfl rfl).1,
    (serverCanSee_corrupt_not_cached envCorrupt [] "example.org" "!room:example.com"
      "$ev" 7 { member_content := none, history_visibility_content := none }
      rfl rfl rfl rfl).2 envWorld rfl⟩

/-- C5: a history visibility value outside the recognized enumeration
yields deny, the deny is written to the cache, and the immediately
following call for the same server and snapshot returns the cached deny
with no collaborator invocation, so the resolver ran exactly once over the
two calls. -/
theorem serverCanSee_unknown_policy_cached (env : Env) (cache : Cache)
    (origin : ServerName) (room_id : RoomId) (event_id event_id2 : EventId)
    (h : Nat) (raw : String)
    (hcap : 0 < env.capacity)
    (hss : env.pdu_shortstatehash event_id = .ok (some h))
    (hss2 : env.pdu_shortstatehash event_id2 = .ok (some h))
    (hmiss : cacheGet cache (origin, h) = none)
    (hres : resolve_history_visibility env h = .ok (.Custom raw)) :
    server_can_see_event env cache origin room_id event_id =
      (.ok false, cacheInsert env.capacity cache (origin, h) false, ⟨1, 0, 0⟩) ∧
    server_can_see_event env (cacheInsert env.capacity cache (origin, h) false)
        origin room_id event_id2 =
      (.ok false,
        cachePromote (cacheInsert env.capacity cache (origin, h) false) (origin, h),
        Counts.zero) := by
  constructor
  · rw [scse_resolved env cache origin room_id event_id h _ hss hmiss hres]
    rfl
  · exact scse_hit env (cacheInsert env.capacity cache (origin, h) false) origin
      room_id event_id2 h false hss2
      (cacheGet_insert env.capacity hcap cache (origin, h) false)

theorem serverCanSee_unknown_policy_cached_witness :
    server_can_see_event envUnknownVis [] "example.org" "!room:example.com" "$ev" =
      (.ok false, cacheInsert envUnknownVis.capacity [] ("example.org", 7) false,
        ⟨1, 0, 0⟩) ∧
    server_can_see_event envUnknownVis
        (cacheInsert envUnknownVis.capacity [] ("example.org", 7) false)
        "example.org" "!room:example.com" "$ev" =
      (.ok false,
        cachePromote (cacheInsert envUnknownVis.capacity [] ("example.org", 7) false)
          ("example.org", 7),
        Counts.zero) :=
  serverCanSee_unknown_policy_cached envUnknownVis [] "example.org"
    "!room:example.com" "$ev" "$ev" 7 "io.element.custom" (by decide) rfl rfl rfl rfl

end Conduit
